import Mathlib

/-!
Verification development for the brainstormagents orchestration core.

This file gives a shallow embedding, in Lean 4, of the orchestration core of
the repository: the phase state machine (`core/facilitator.py`), the session
aggregate (`core/session.py`, `core/protocol.py`, `core/session_manager.py`),
the completion-provider fallback logic (`utils/llm_client.py`), the phase
runner and full-session runner (`api/services/stream_service.py`), the intent
analyzer (`features/intent_analyzer.py`), the expert matcher
(`features/expert_matcher.py`) and the solve pipeline
(`features/problem_solver.py`).

Modelling conventions:
- Python dicts with string keys are association lists (`List (String × Nat)` etc.).
- The chat-completion network calls are oracles: functions returning
  `Except String String` (an `Except.error` models a raised exception).
- External collaborators that the specification explicitly scopes out
  (persistence sink, visualizer, statistics, emotion engine) are modelled as
  no-ops on the session state; the events they cause (`graph_update`) are kept.
- Long prompt-template strings are kept only in abbreviated form (the
  specification treats prompt-template content as opaque); every part of a
  prompt that any theorem depends on (in particular the human-instruction
  wording variants) is embedded verbatim.
- Wall-clock timing (`time.time()`, `asyncio.sleep`) and float-valued
  confidence scores are not modelled; no claim depends on them.
- The cooperative pause poll loop is modelled against an environment schedule
  `pause : Nat → Bool` sampled at a logical clock that advances by one at
  every emitted event; the loop carries fuel, and fuel exhaustion while the
  schedule stays true models indefinite suspension (`Option.none`).
-/

namespace Brainstorm

/-- Discussion phases, in declaration order, from `core/facilitator.py`
(`class BrainstormPhase(Enum)`). -/
inductive BrainstormPhase where
  | OPENING
  | DEFINE_TOPIC
  | DIVERGE
  | DEEPEN
  | EVALUATE
  | INTEGRATE
  | OUTPUT
deriving DecidableEq, Repr, BEq

/-- Enum string values of the phases (`BrainstormPhase.OPENING = "opening"` etc.). -/
def BrainstormPhase.value : BrainstormPhase → String
  | .OPENING => "opening"
  | .DEFINE_TOPIC => "define_topic"
  | .DIVERGE => "diverge"
  | .DEEPEN => "deepen"
  | .EVALUATE => "evaluate"
  | .INTEGRATE => "integrate"
  | .OUTPUT => "output"

/-- Python `list(BrainstormPhase)`: members in declaration order. -/
def phasesList : List BrainstormPhase :=
  [.OPENING, .DEFINE_TOPIC, .DIVERGE, .DEEPEN, .EVALUATE, .INTEGRATE, .OUTPUT]

/-- Static per-phase configuration entry of the `PHASE_CONFIG` dict in
`core/facilitator.py`.  The long facilitator/agent prompt templates are kept
abbreviated (their content is opaque to every claim); `agent_prompt` is
`none` exactly for the phases whose dict entry has no `"agent_prompt"` key. -/
structure PhaseConfig where
  name : String
  emoji : String
  rounds : Nat
  facilitator_prompt : String
  agent_prompt : Option String
deriving Repr, DecidableEq

/-- The `PHASE_CONFIG` dict of `core/facilitator.py`, keyed by phase.
Names, emojis and round counts are verbatim from the source. -/
def PHASE_CONFIG : BrainstormPhase → PhaseConfig
  | .OPENING =>
    { name := "启动会话", emoji := "🎬", rounds := 0,
      facilitator_prompt := "你是头脑风暴的主持人。请用热情、专业的方式开场…",
      agent_prompt := none }
  | .DEFINE_TOPIC =>
    { name := "定义主题", emoji := "🎯", rounds := 1,
      facilitator_prompt := "现在进入【定义主题】阶段。…",
      agent_prompt := some "【定义主题阶段】…" }
  | .DIVERGE =>
    { name := "发散阶段", emoji := "💡", rounds := 2,
      facilitator_prompt := "现在进入【发散阶段】，这是头脑风暴最重要的环节！…",
      agent_prompt := some "【发散阶段】🧠…" }
  | .DEEPEN =>
    { name := "深化阶段", emoji := "🔍", rounds := 2,
      facilitator_prompt := "现在进入【深化阶段】。…",
      agent_prompt := some "【深化阶段】🔍…" }
  | .EVALUATE =>
    { name := "评估阶段", emoji := "⚖️", rounds := 1,
      facilitator_prompt := "现在进入【评估阶段】。…",
      agent_prompt := some "【评估阶段】⚖️…" }
  | .INTEGRATE =>
    { name := "整合阶段", emoji := "🔗", rounds := 1,
      facilitator_prompt := "现在进入【整合阶段】。…",
      agent_prompt := some "【整合阶段】🔗…" }
  | .OUTPUT =>
    { name := "输出方案", emoji := "📋", rounds := 0,
      facilitator_prompt := "头脑风暴进入【收尾阶段】。…",
      agent_prompt := none }

/-- Facilitator object (`class Facilitator` of `core/facilitator.py`): the
current phase pointer plus the per-phase round-count override dicts.
`custom_rounds` is the constructor argument; `phase_rounds` is the extra
attribute that `SessionState.initialize_session` (in
`core/session_manager.py`) sets to the same override dict (`phase_rounds or
\x7b\x7d`).  `generate_phase_stream` reads `phase_rounds`;
`get_phase_config` reads `custom_rounds`. -/
structure Facilitator where
  current_phase : BrainstormPhase
  custom_rounds : List (String × Nat)
  phase_rounds : List (String × Nat)
  model_name : String
deriving Repr, DecidableEq

/-- The `Facilitator.get_phase_config` method: a copy of the static config for
the current phase, with `rounds` replaced by `custom_rounds[phase]` when that
key is present. -/
def Facilitator.get_phase_config (f : Facilitator) : PhaseConfig :=
  let config := PHASE_CONFIG f.current_phase
  match f.custom_rounds.lookup f.current_phase.value with
  | some r => { config with rounds := r }
  | none => config

/-- The `Facilitator.advance_phase` method: look up the index of the current
phase in `list(BrainstormPhase)`; if it is not the last index, move to the
next phase and return `True`, else return `False` leaving the phase
unchanged.  The Lean function returns the Python return value paired with
the updated object. -/
def Facilitator.advance_phase (f : Facilitator) : Bool × Facilitator :=
  let phases := phasesList
  let current_idx := phases.indexOf f.current_phase
  if current_idx < phases.length - 1 then
    (true, { f with current_phase := phases.getD (current_idx + 1) f.current_phase })
  else
    (false, f)

/-- The `Facilitator.get_agent_prompt_for_phase` method: the topic header
prepended to the phase agent prompt when one exists, else the empty string
(Python string falsiness of the missing `agent_prompt`). -/
def Facilitator.get_agent_prompt_for_phase (f : Facilitator) (topic : String) : String :=
  let base_prompt := (PHASE_CONFIG f.current_phase).agent_prompt.getD ""
  if base_prompt ≠ "" then "【讨论主题】" ++ topic ++ "\n\n" ++ base_prompt else ""

/-- Iterated `advance_phase`, used to state idempotence at the terminal phase. -/
def Facilitator.advance_iter (f : Facilitator) : Nat → Facilitator
  | 0 => f
  | n + 1 => (f.advance_phase.2).advance_iter n

/-! ## Completion provider (`utils/llm_client.py`) -/

/-- The `DEFAULT_MODEL` constant of `config.py`. -/
def DEFAULT_MODEL : String := "gemini-2.5-flash-lite"

/-- The `FALLBACK_MODELS` constant of `config.py`. -/
def FALLBACK_MODELS : List String := ["gpt-5-chat", "grok-4.1-fast"]

/-- Python substring membership `pat in s` (for nonempty `pat`), via
`String.splitOn`: `pat` occurs in `s` iff splitting on it yields more than
one piece. -/
def containsSub (s pat : String) : Bool :=
  (s.splitOn pat).length > 1

/-- Candidate model chain of `llm_client.py`:
`[model] + [m for m in FALLBACK_MODELS if m != model]`. -/
def candidate_models (model : String) : List String :=
  model :: FALLBACK_MODELS.filter (fun m => m ≠ model)

/-- An `LLMClient` (`utils/llm_client.py`): mock-mode flags derived from the
api key (`api_key == "sk-mock-key-for-testing" or api_key == "mock"`, and for
the async path also `async_client is None`), plus oracles for the underlying
`chat.completions.create` network calls.  `attempt model` models one
non-streaming call for a given model (`Except.error` = the call raised);
`stream_attempt model` models one streaming call, returning the chunk list
the stream would deliver. -/
structure LLMClient where
  mock : Bool
  async_mock : Bool
  attempt : String → String → String → Except String String
  stream_attempt : String → String → String → Except String (List String)

/-- Mock reply of `get_completion` (`llm_client.py` mock branch). -/
def mock_completion (system_prompt user_prompt : String) : String :=
  if containsSub system_prompt "Markdown" || containsSub user_prompt "Markdown"
      || containsSub user_prompt "报告" then
    "# 🚀 创新方案验证报告 (Mock)…"
  else
    "[Mock Response] Interesting point about " ++ (user_prompt.take 20)
      ++ "... I think we should explore this further."

/-- Fallback loop of `get_completion`: try each candidate model in order,
returning the first successful response (stripped); `none` when every
attempt raised. -/
def try_models (attempt : String → String → String → Except String String)
    (system_prompt user_prompt : String) : List String → Option String
  | [] => none
  | m :: rest =>
    match attempt m system_prompt user_prompt with
    | .ok response => some response.trim
    | .error _ => try_models attempt system_prompt user_prompt rest

/-- Sentinel returned by `get_completion` when every fallback model failed. -/
def sync_error_sentinel (candidates : List String) : String :=
  "[System Error] Unable to generate response after trying multiple models ("
    ++ String.intercalate ", " candidates ++ "). Please check API connectivity."

/-- The `LLMClient.get_completion` method (non-streaming, synchronous): mock
branch, else the fallback chain, else the sentinel error string.  The
`timeout` parameter of the source only tweaks per-call transport arguments
and is not modelled. -/
def LLMClient.get_completion (c : LLMClient) (system_prompt user_prompt : String)
    (model : Option String := none) : String :=
  let model := model.getD DEFAULT_MODEL
  if c.mock then
    mock_completion system_prompt user_prompt
  else
    let candidates := candidate_models model
    match try_models c.attempt system_prompt user_prompt candidates with
    | some response => response
    | none => sync_error_sentinel candidates

/-- Mock reply of `get_completion_stream` (word-by-word split of the mock
response, each word re-suffixed with a space). -/
def mock_stream (user_prompt : String) : List String :=
  let mock_response := "[Mock Response] Interesting point about " ++ (user_prompt.take 20)
      ++ "... I think we should explore this further."
  (mock_response.splitOn " ").filter (fun w => w ≠ "") |>.map (fun w => w ++ " ")

/-- Fallback loop of `get_completion_stream`: chunks of the first model whose
stream succeeds (the source drops falsy chunks: `if chunk...delta.content`),
`none` when every model failed. -/
def try_stream (stream_attempt : String → String → String → Except String (List String))
    (system_prompt user_prompt : String) : List String → Option (List String)
  | [] => none
  | m :: rest =>
    match stream_attempt m system_prompt user_prompt with
    | .ok chunks => some (chunks.filter (fun ch => ch ≠ ""))
    | .error _ => try_stream stream_attempt system_prompt user_prompt rest

/-- Sentinel chunk yielded by `get_completion_stream` when all models failed. -/
def stream_error_sentinel (candidates : List String) : String :=
  "[System Error] Unable to stream response. All fallback models ("
    ++ String.intercalate ", " candidates ++ ") failed."

/-- The `LLMClient.get_completion_stream` method, as the list of chunks the
generator yields.  A mid-stream failure after some chunks were already
yielded is modelled as the whole attempt failing (the oracle decides per
model); no claim distinguishes the two. -/
def LLMClient.get_completion_stream (c : LLMClient) (system_prompt user_prompt : String)
    (model : Option String := none) : List String :=
  let model := model.getD DEFAULT_MODEL
  if c.mock then
    mock_stream user_prompt
  else
    let candidates := candidate_models model
    match try_stream c.stream_attempt system_prompt user_prompt candidates with
    | some chunks => chunks
    | none => [stream_error_sentinel candidates]

/-- Fallback loop of `get_completion_async`, also tracking `last_error`: each
failing attempt overwrites it, so on exhaustion the error of the last model
is reported (initially the Python `None`, rendered `"None"`). -/
def try_models_async (attempt : String → String → String → Except String String)
    (system_prompt user_prompt : String) : List String → String → Except String String
  | [], last_error => .error last_error
  | m :: rest, _ =>
    match attempt m system_prompt user_prompt with
    | .ok response => .ok response.trim
    | .error e => try_models_async attempt system_prompt user_prompt rest e

/-- Sentinel returned by `get_completion_async` when every model failed. -/
def async_error_sentinel (last_error : String) : String :=
  "[Async Error] All models failed. Last error: " ++ last_error

/-- The `LLMClient.get_completion_async` method: async-mock branch, else the
fallback chain, else the async sentinel carrying the last error. -/
def LLMClient.get_completion_async (c : LLMClient) (system_prompt user_prompt : String)
    (model : Option String := none) : String :=
  let _model := model.getD DEFAULT_MODEL
  if c.async_mock then
    "[Mock Async Response] Regarding \x27" ++ (user_prompt.take 30)
      ++ "...\x27 - this is a simulated response."
  else
    match try_models_async c.attempt system_prompt user_prompt (candidate_models _model) "None" with
    | .ok response => response
    | .error last_error => async_error_sentinel last_error

/-! ## Session aggregate (`core/protocol.py`, `core/session.py`, `core/agent.py`) -/

/-- A `Message` (`core/protocol.py`): sender, content and the metadata keys the
orchestration core reads (`"type"`, `"phase"`, `"role"`, `"round"`); a `none`
field models an absent dict key.  The float timestamp is not modelled. -/
structure Message where
  sender : String
  content : String
  mtype : Option String := none
  mphase : Option String := none
  mrole : Option String := none
  mround : Option Nat := none
deriving Repr, DecidableEq

/-- An `Agent` (`core/agent.py`).  `model_name` is already defaulted at
construction (`model_name or DEFAULT_MODEL`).  `current_emotion` is mutated
only by the emotion collaborator, which the specification scopes out; the
runner model leaves it fixed.  The agent's private `history` mirror is not
modelled (never read by the orchestration core). -/
structure Agent where
  name : String
  role : String
  expertise : String
  style : String
  personality_traits : List String
  model_name : String
  current_emotion : String := "neutral"
deriving Repr, DecidableEq

/-- The `Agent.get_system_prompt` method, verbatim. -/
def Agent.get_system_prompt (a : Agent) : String :=
  "You are " ++ a.name ++ ", a member of a brainstorming group.\n"
    ++ "Role: " ++ a.role ++ "\n"
    ++ "Expertise: " ++ a.expertise ++ "\n"
    ++ "Style: " ++ a.style ++ "\n"
    ++ "Personality: " ++ String.intercalate ", " a.personality_traits ++ "\n"
    ++ "Current Emotion: " ++ a.current_emotion ++ "\n"

/-- A `BrainstormingSession` (`core/session.py`): topic, roster, append-only
history, round counter. -/
structure Session where
  topic : String
  agents : List Agent
  history : List Message
  rounds : Nat
deriving Repr, DecidableEq

/-- The `BrainstormingSession.add_message` method: append to the ordered
history (the per-agent history mirrors are not modelled). -/
def Session.add_message (s : Session) (m : Message) : Session :=
  { s with history := s.history ++ [m] }

/-- Initialized per-session runner state: the fields of `SessionState`
(`core/session_manager.py`) that `generate_phase_stream` reads and writes,
with `session` and `facilitator` known present.  `is_paused` is modelled as
an external schedule (it is toggled by other request handlers), so it is not
a field here. -/
structure RunState where
  session : Session
  facilitator : Facilitator
  interrupt_signal : Bool
deriving Repr, DecidableEq

/-- A `SessionState` as held in the global registry: `session` and
`facilitator` start as `None` and are set by `initialize_session`. -/
structure SessionStateO where
  session : Option Session
  facilitator : Option Facilitator
  interrupt_signal : Bool
deriving Repr, DecidableEq

/-! ## Phase runner (`api/services/stream_service.py`) -/

/-- Server-sent events of the phase/full-session stream, with the payload
fields the claims inspect. -/
inductive Event where
  | phase_start (phase name : String)
  | message (sender content : String)
  | round_start (round total : Nat)
  | paused
  | agent_typing (agent role : String)
  | message_chunk (sender chunk : String)
  | message_complete (sender content : String)
  | graph_update
  | phase_complete (phase : String)
  | phase_transition (next_phase next_name : String)
  | session_start (topic : String)
  | generating_summary
  | summary (content : String)
  | session_complete (topic : String)
  | error (msg : String)
deriving Repr, DecidableEq, BEq

/-- Python `history[-n:]`: the last `n` entries (all of them when fewer). -/
def lastN (n : Nat) (l : List Message) : List Message :=
  l.drop (l.length - n)

/-- The context window of a participant turn:
`"\n".join(f"..." for m in state.session.history[-15:])`. -/
def history_text (history : List Message) : String :=
  String.intercalate "\n" ((lastN 15 history).map (fun m => m.sender ++ ": " ++ m.content))

/-- Scan of `reversed(state.session.history[-3:])` for the first message with
`metadata.get("type") == "human"`. -/
def find_human_message (history : List Message) : Option Message :=
  (lastN 3 history).reverse.find? (fun m => m.mtype == some "human")

/-- Urgent wording tag used when the interrupt flag was consumed this turn. -/
def urgent_tag : String := "🔴【紧急插播】"

/-- Normal wording tag used when a human message is present without an
interrupt. -/
def special_tag : String := "⚠️【特别指令】"

/-- The `human_instruction` computation of a participant turn: the chosen tag
(`prefix` local of the source, `none` when no human message is found among
the last 3 history entries) together with the instruction text appended to
the prompt. -/
def build_human_instruction (is_interrupt : Bool) (history : List Message) :
    Option String × String :=
  match find_human_message history with
  | some m =>
    let tag := if is_interrupt then urgent_tag else special_tag
    (some tag,
      "\n\n" ++ tag ++ " 用户刚刚参与了讨论！请务必优先回应用户的观点或问题 (\x27"
        ++ m.content ++ "\x27)，与其进行互动，然后再继续阐述你的看法。")
  | none => (none, "")

/-- The `full_prompt` f-string of a participant turn. -/
def build_full_prompt (agent_prompt hist_text human_instruction : String) : String :=
  agent_prompt ++ "\n\n【讨论历史】\n" ++ hist_text ++ human_instruction
    ++ "\n\n请开始你的发言："

/-- The cooperative pause poll loop `while state.is_paused: yield paused;
sleep(1)`, against the schedule `pause` sampled at the event clock `t`:
one `paused` event per poll that reads `true`; returns the events and the
advanced clock, or `none` when the fuel runs out with the schedule still
`true` (indefinite suspension). -/
def pause_loop (pause : Nat → Bool) : Nat → Nat → Option (List Event × Nat)
  | 0, t => if pause t then none else some ([], t)
  | fuel + 1, t =>
    if pause t then
      match pause_loop pause fuel (t + 1) with
      | some (evs, t') => some (Event.paused :: evs, t')
      | none => none
    else
      some ([], t)

/-- Observable intermediate values of one participant turn (locals of the
source: `is_interrupt`, the chosen instruction tag, `human_instruction`,
`full_prompt`, the accumulated `full_response`). -/
structure TurnLog where
  is_interrupt : Bool
  tag : Option String
  human_instruction : String
  full_prompt : String
  full_response : String
deriving Repr, DecidableEq

/-- One participant turn of `generate_phase_stream` (the body of
`for agent in agents`): sample-and-clear the interrupt flag, build the
context and the optional human instruction, wait out the pause loop, then
emit `agent_typing`, the streamed chunks, `message_complete` and
`graph_update`, and append the accumulated message to the session history
with metadata `(phase, role, round)`.  The emotion update, statistics,
persistence and visualization collaborators are no-ops on this state.
Returns `none` only when the pause fuel is exhausted. -/
def run_turn (client : LLMClient) (pause : Nat → Bool) (fuel : Nat)
    (agent_prompt phase_value : String) (agent : Agent) (st : RunState) (t : Nat) :
    Option (List Event × RunState × Nat × TurnLog) :=
  let hist_text := history_text st.session.history
  let is_interrupt := st.interrupt_signal
  let st := if is_interrupt then { st with interrupt_signal := false } else st
  let bhi := build_human_instruction is_interrupt st.session.history
  let tag := bhi.1
  let human_instruction := bhi.2
  let full_prompt := build_full_prompt agent_prompt hist_text human_instruction
  match pause_loop pause fuel t with
  | none => none
  | some (pause_evs, t1) =>
    let chunks := client.get_completion_stream agent.get_system_prompt full_prompt
        (some agent.model_name)
    let full_response := String.join chunks
    let chunk_evs := chunks.map (fun ch => Event.message_chunk agent.name ch)
    let msg : Message :=
      { sender := agent.name, content := full_response,
        mphase := some phase_value, mrole := some agent.role,
        mround := some st.session.rounds }
    let st' := { st with session := st.session.add_message msg }
    let evs := pause_evs ++ [Event.agent_typing agent.name agent.role] ++ chunk_evs
        ++ [Event.message_complete agent.name full_response, Event.graph_update]
    let t' := t1 + 1 + chunks.length + 2
    some (evs, st', t',
      { is_interrupt := is_interrupt, tag := tag,
        human_instruction := human_instruction, full_prompt := full_prompt,
        full_response := full_response })

/-- The inner `for agent in agents` loop of one round. -/
def run_agents (client : LLMClient) (pause : Nat → Bool) (fuel : Nat)
    (agent_prompt phase_value : String) :
    List Agent → RunState → Nat → Option (List Event × RunState × Nat)
  | [], st, t => some ([], st, t)
  | a :: rest, st, t =>
    match run_turn client pause fuel agent_prompt phase_value a st t with
    | none => none
    | some (evs, st1, t1, _) =>
      match run_agents client pause fuel agent_prompt phase_value rest st1 t1 with
      | none => none
      | some (evs2, st2, t2) => some (evs ++ evs2, st2, t2)

/-- The outer `for round_num in range(phase_rounds)` loop: a `round_start`
event when `phase_rounds > 1`, then the roster pass.  `remaining` counts the
rounds still to run; `total` is `phase_rounds`. -/
def run_rounds (client : LLMClient) (pause : Nat → Bool) (fuel : Nat)
    (agent_prompt phase_value : String) (agents : List Agent) (total : Nat) :
    Nat → RunState → Nat → Option (List Event × RunState × Nat)
  | 0, st, t => some ([], st, t)
  | remaining + 1, st, t =>
    let round_num := total - (remaining + 1)
    let (start_evs, t0) : List Event × Nat :=
      if total > 1 then ([Event.round_start (round_num + 1) total], t + 1) else ([], t)
    match run_agents client pause fuel agent_prompt phase_value agents st t0 with
    | none => none
    | some (evs, st1, t1) =>
      match run_rounds client pause fuel agent_prompt phase_value agents total remaining st1 t1 with
      | none => none
      | some (evs2, st2, t2) => some (start_evs ++ evs ++ evs2, st2, t2)

/-- System prompt of the facilitator (`Facilitator.get_system_prompt`),
abbreviated (opaque prompt content). -/
def facilitator_system_prompt : String := "你是一位专业的头脑风暴主持人（Facilitator）…"

/-- The round count `generate_phase_stream` actually runs:
`state.facilitator.phase_rounds.get(state.facilitator.current_phase.value, 1)`.
Note the default is the literal `1`, not the static `PHASE_CONFIG` round
count. -/
def runner_rounds (f : Facilitator) : Nat :=
  (f.phase_rounds.lookup f.current_phase.value).getD 1

/-- Facilitator intro utterance of one phase invocation: the completion call
of `generate_phase_stream` step 1 (prompt verbatim from the source). -/
def facilitator_intro (client : LLMClient) (st : RunState) : String :=
  client.get_completion facilitator_system_prompt
    ("Please introduce the \x27" ++ (st.facilitator.get_phase_config).name
      ++ "\x27 phase for the topic: " ++ st.session.topic ++ ". Be brief and encouraging.")
    (some st.facilitator.model_name)

/-- History entry recording the facilitator intro
(`Message("主持人", intro, {"type": "facilitator_intro", "phase": ...})`). -/
def intro_message (client : LLMClient) (st : RunState) : Message :=
  { sender := "主持人", content := facilitator_intro client st,
    mtype := some "facilitator_intro",
    mphase := some st.facilitator.current_phase.value }

/-- The `generate_phase_stream` coroutine of `api/services/stream_service.py`
on an initialized state: `phase_start`, facilitator intro (emitted and
appended), then — when the looked-up round count is positive — the round
loop followed by a single `rounds += 1`, and finally `phase_complete`.
`t` is the event clock at entry; returns `none` only on pause-fuel
exhaustion. -/
def generate_phase_stream (client : LLMClient) (pause : Nat → Bool) (fuel : Nat)
    (st : RunState) (t : Nat) : Option (List Event × RunState × Nat) :=
  let topic := st.session.topic
  let agents := st.session.agents
  let phase_config := st.facilitator.get_phase_config
  let phase_rounds := runner_rounds st.facilitator
  let phase_name := phase_config.name
  let phase_value := st.facilitator.current_phase.value
  let ev0 := Event.phase_start phase_value phase_name
  let intro := facilitator_intro client st
  let ev1 := Event.message "主持人" intro
  let intro_msg : Message := intro_message client st
  let st1 := { st with session := st.session.add_message intro_msg }
  let t1 := t + 2
  if phase_rounds > 0 then
    let agent_prompt := st1.facilitator.get_agent_prompt_for_phase topic
    match run_rounds client pause fuel agent_prompt phase_value agents phase_rounds
        phase_rounds st1 t1 with
    | none => none
    | some (evs, st2, t2) =>
      let st3 := { st2 with session := { st2.session with rounds := st2.session.rounds + 1 } }
      some ([ev0, ev1] ++ evs ++ [Event.phase_complete phase_value], st3, t2 + 1)
  else
    some ([ev0, ev1, Event.phase_complete phase_value], st1, t1 + 1)

/-- The `generate_phase_stream` guard on a possibly-uninitialized
`SessionState`: `if not state.session or not state.facilitator: return`
(an empty stream, state unchanged). -/
def generate_phase_stream_checked (client : LLMClient) (pause : Nat → Bool) (fuel : Nat)
    (sst : SessionStateO) (t : Nat) : Option (List Event × SessionStateO × Nat) :=
  match sst.session, sst.facilitator with
  | some s, some f =>
    match generate_phase_stream client pause fuel
        { session := s, facilitator := f, interrupt_signal := sst.interrupt_signal } t with
    | none => none
    | some (evs, st', t') =>
      some (evs, { session := some st'.session, facilitator := some st'.facilitator,
                   interrupt_signal := st'.interrupt_signal }, t')
  | _, _ => some ([], sst, t)

/-- Final-summary text (`Facilitator.generate_final_summary`): one completion
call over the serialized history tail; the long report template is
abbreviated (opaque prompt content). -/
def generate_final_summary (client : LLMClient) (f : Facilitator) (topic : String)
    (history : List Message) : String :=
  let relevant := history.filter
      (fun m => m.mtype == some "agent" || m.mrole == some "facilitator" || m.mrole == some "summary")
  let hist_text := String.intercalate "\n"
      ((relevant.drop (relevant.length - 80)).map (fun m => "【" ++ m.sender ++ "】: " ++ m.content))
  client.get_completion "你是世界顶级的战略咨询顾问和方案架构师…"
    ("请基于以上头脑风暴讨论记录…《" ++ topic ++ "》…\n" ++ hist_text)
    (some f.model_name)

/-- The `while True` phase loop of `run_full_session_stream`: run one phase,
advance; on a successful advance emit `phase_transition` and repeat; stop
when `advance_phase` returns `False`.  The loop runs at most
`phasesList.length` iterations, so that fuel bound always suffices. -/
def full_session_loop (client : LLMClient) (pause : Nat → Bool) (fuel : Nat) :
    Nat → RunState → Nat → Option (List Event × RunState × Nat)
  | 0, _, _ => none
  | n + 1, st, t =>
    match generate_phase_stream client pause fuel st t with
    | none => none
    | some (evs, st1, t1) =>
      let (advanced, fac2) := st1.facilitator.advance_phase
      let st2 := { st1 with facilitator := fac2 }
      if advanced then
        let ev := Event.phase_transition fac2.current_phase.value
            (PHASE_CONFIG fac2.current_phase).name
        match full_session_loop client pause fuel n st2 (t1 + 1) with
        | none => none
        | some (evs2, st3, t3) => some (evs ++ [ev] ++ evs2, st3, t3)
      else
        some (evs, st2, t1)

/-- The `run_full_session_stream` coroutine: look the session id up in the
registry (the source performs the same lookup twice —
`session_manager.get_session` then `session_manager.sessions.get` — on the
same dict); on a missing or uninitialized session emit exactly one `error`
event and stop; otherwise `session_start`, the phase loop, then the final
summary (emitted, appended) and `session_complete`. -/
def run_full_session_stream (registry : List (String × SessionStateO))
    (client : LLMClient) (pause : Nat → Bool) (fuel : Nat) (session_id : String) :
    Option (List Event × Option RunState) :=
  match registry.lookup session_id with
  | none => some ([Event.error "Session not initialized"], none)
  | some sst =>
    match sst.session, sst.facilitator with
    | some s, some f =>
      let st0 : RunState :=
        { session := s, facilitator := f, interrupt_signal := sst.interrupt_signal }
      let ev0 := Event.session_start s.topic
      match full_session_loop client pause fuel phasesList.length st0 1 with
      | none => none
      | some (evs, st1, t1) =>
        let summary_text := generate_final_summary client st1.facilitator
            st1.session.topic st1.session.history
        let summary_msg : Message :=
          { sender := "📋 创新方案报告", content := summary_text, mtype := some "summary" }
        let st2 := { st1 with session := st1.session.add_message summary_msg }
        let _t2 := t1 + 3
        some (ev0 :: evs ++ [Event.generating_summary, Event.summary summary_text,
          Event.session_complete st2.session.topic], some st2)
    | _, _ => some ([Event.error "Session not initialized"], none)

/-! ## Intent analyzer (`features/intent_analyzer.py`) -/

/-- Result of intent analysis (`class ProblemIntent`).  The float confidence
field is not modelled. -/
structure ProblemIntent where
  original_problem : String
  problem_type : String
  domains : List String
  sub_problems : List String
  complexity : String
  keywords : List String := []
deriving Repr, DecidableEq

/-- The `DOMAIN_KEYWORDS` table of `features/intent_analyzer.py`, verbatim and
in source (dict-insertion) order. -/
def DOMAIN_KEYWORDS : List (String × List String) :=
  [("产品规划", ["产品", "市场", "用户需求", "定位", "规划", "策略"]),
   ("电控软件", ["电控", "软件", "代码", "程序", "控制器", "MCU", "固件"]),
   ("嵌入式", ["嵌入式", "单片机", "ARM", "RTOS", "驱动", "底层"]),
   ("IoT", ["物联网", "IoT", "联网", "WiFi", "蓝牙", "通信", "协议"]),
   ("TRIZ创新", ["创新", "专利", "突破", "矛盾", "发明"]),
   ("热技术", ["散热", "温度", "热管理", "导热", "热仿真", "冷却"]),
   ("流体", ["流体", "管路", "泵", "阀", "流量", "压力", "CFD"]),
   ("空气动力学", ["风道", "气流", "风扇", "风阻", "通风"]),
   ("结构", ["结构", "强度", "刚度", "振动", "模态", "变形", "CAE"]),
   ("燃烧", ["燃烧", "火焰", "燃气", "能效", "排放"]),
   ("硬件", ["电路", "PCB", "元器件", "焊接", "布局"]),
   ("声学", ["噪音", "噪声", "声学", "降噪", "静音", "分贝"]),
   ("电磁", ["电磁", "EMC", "EMI", "干扰", "屏蔽", "兼容"]),
   ("电机", ["电机", "马达", "转速", "扭矩", "驱动"]),
   ("变频", ["变频", "逆变", "功率", "谐波", "IGBT"]),
   ("制冷", ["制冷", "冷媒", "压缩机", "蒸发", "冷凝", "热泵"]),
   ("控制算法", ["PID", "控制", "算法", "调节", "反馈", "MPC"]),
   ("智能技术", ["智能", "语音", "APP", "交互", "联动"]),
   ("传感器", ["传感器", "检测", "测量", "信号", "传感"]),
   ("材料", ["材料", "塑料", "金属", "复合材料", "涂层"]),
   ("电化学", ["电池", "锂电", "充电", "BMS", "电化学"]),
   ("净水", ["净水", "过滤", "滤芯", "水质", "RO膜"]),
   ("营销", ["营销", "推广", "品牌", "销售", "渠道"]),
   ("健康营养", ["健康", "营养", "食品", "保健"]),
   ("医疗", ["医疗", "健康监测", "医疗器械", "认证"]),
   ("雷达", ["雷达", "感应", "毫米波", "测距", "探测"]),
   ("自动控制", ["自动化", "PLC", "工控", "自动"]),
   ("机器学习", ["机器学习", "ML", "模型", "训练", "数据"]),
   ("AI技术", ["AI", "人工智能", "大模型", "深度学习", "神经网络"])]

/-- The `PROBLEM_TYPE_KEYWORDS` table, verbatim. -/
def PROBLEM_TYPE_KEYWORDS : List (String × List String) :=
  [("设计", ["设计", "如何做", "怎么实现", "方案", "架构"]),
   ("调试", ["调试", "故障", "问题", "bug", "不工作", "异常", "报错"]),
   ("优化", ["优化", "改进", "提升", "提高", "降低", "减少"]),
   ("选型", ["选型", "选择", "哪个好", "推荐", "对比", "比较"]),
   ("分析", ["分析", "原因", "为什么", "原理", "机理"]),
   ("创新", ["创新", "新方案", "突破", "颠覆", "新思路"])]

/-- The `IntentAnalyzer._quick_domain_detect` method: lowercase the problem,
then collect (in table order, deduplicated) every domain one of whose
keywords occurs in it.  The per-domain `break` after the first matching
keyword is equivalent to the `any` here. -/
def quick_domain_detect (problem : String) : List String :=
  let problem_lower := problem.toLower
  DOMAIN_KEYWORDS.foldl
    (fun detected dk =>
      if dk.2.any (fun kw => containsSub problem_lower kw) then
        if detected.contains dk.1 then detected else detected ++ [dk.1]
      else detected)
    []

/-- The `IntentAnalyzer._quick_type_detect` method: the first problem type one
of whose keywords occurs in the lowercased problem, defaulting to `"分析"`. -/
def quick_type_detect (problem : String) : String :=
  let problem_lower := problem.toLower
  match PROBLEM_TYPE_KEYWORDS.find?
      (fun pk => pk.2.any (fun kw => containsSub problem_lower kw)) with
  | some pk => pk.1
  | none => "分析"

/-- Code-fence extraction of `IntentAnalyzer.analyze`:
take the segment between a ```json fence (or a plain ``` fence) when one is
present, else the whole response. -/
def extract_json (response : String) : String :=
  if containsSub response "```json" then
    (((response.splitOn "```json").getD 1 "").splitOn "```").getD 0 ""
  else if containsSub response "```" then
    (((response.splitOn "```").getD 1 "").splitOn "```").getD 0 ""
  else response

/-- Shape of a successfully `json.loads`-parsed analysis dict: each field is
the value of the corresponding key, `none` when the key is absent (the
source reads keys with `dict.get`). -/
structure ParsedIntent where
  problem_type : Option String := none
  domains : Option (List String) := none
  sub_problems : Option (List String) := none
  complexity : Option String := none
  keywords : Option (List String) := none

/-- Fallback `ProblemIntent` built in the `except` branch of
`IntentAnalyzer.analyze` (keyword detection; generalist default domain). -/
def fallback_intent (problem quick_type : String) (quick_domains : List String) :
    ProblemIntent :=
  { original_problem := problem,
    problem_type := quick_type,
    domains := if quick_domains ≠ [] then quick_domains else ["产品规划"],
    sub_problems := [problem],
    complexity := "medium",
    keywords := [] }

/-- The `IntentAnalyzer.analyze` method.  `llm_result` is the outcome of the
awaited provider call (`Except.error` = the call raised); `parse` models
`json.loads` plus dict access on the fence-stripped text (`none` = the text
is not a JSON object of the expected shape, which in the source raises and
lands in the `except` branch).  The function is total: no path raises. -/
def analyze (parse : String → Option ParsedIntent) (llm_result : Except String String)
    (problem : String) : ProblemIntent :=
  let quick_domains := quick_domain_detect problem
  let quick_type := quick_type_detect problem
  match llm_result with
  | .error _ => fallback_intent problem quick_type quick_domains
  | .ok response =>
    match parse (extract_json response).trim with
    | none => fallback_intent problem quick_type quick_domains
    | some r =>
      { original_problem := problem,
        problem_type := r.problem_type.getD quick_type,
        domains := r.domains.getD quick_domains,
        sub_problems := r.sub_problems.getD [problem],
        complexity := r.complexity.getD "medium",
        keywords := r.keywords.getD [] }

/-! ## Expert matcher (`features/expert_matcher.py`) -/

/-- An `ExpertPreset` of the expert catalog. -/
structure ExpertPreset where
  name : String
  role : String
  expertise : String
  style : String := ""
  personality_traits : List String := []
deriving Repr, DecidableEq

/-- The `DOMAIN_TO_EXPERT_INDEX` table, verbatim. -/
def DOMAIN_TO_EXPERT_INDEX : List (String × List Nat) :=
  [("产品规划", [0, 3]), ("电控软件", [1]), ("嵌入式", [2]), ("IoT", [4]),
   ("TRIZ创新", [5]), ("热技术", [6]), ("流体", [7]), ("空气动力学", [8]),
   ("结构", [9]), ("燃烧", [10]), ("硬件", [11]), ("自媒体", [12]),
   ("声学", [13]), ("电磁", [14]), ("电机", [15]), ("变频", [16]),
   ("制冷", [17]), ("控制算法", [18]), ("智能技术", [19]), ("传感器", [20]),
   ("材料", [21]), ("电化学", [22]), ("净水", [23]), ("营销", [24]),
   ("健康营养", [25]), ("医疗", [26]), ("雷达", [27]), ("自动控制", [28]),
   ("机器学习", [29]), ("AI技术", [30])]

/-- A `MatchedExpert`.  `relevance_score` is the source's float score scaled
by 10 (`1.0 ↦ 10`, `0.5 ↦ 5`), preserving all comparisons. -/
structure MatchedExpert where
  index : Nat
  name : String
  role : String
  expertise : String
  matched_domain : String
  relevance_score : Nat
  assigned_sub_problem : String := ""
deriving Repr, DecidableEq

/-- Build the `MatchedExpert` for catalog index `idx` (score 1.0). -/
def matched_of (experts : List ExpertPreset) (idx : Nat) (domain : String)
    (score : Nat) : MatchedExpert :=
  let e := experts.getD idx { name := "", role := "", expertise := "" }
  { index := idx, name := e.name, role := e.role, expertise := e.expertise,
    matched_domain := domain, relevance_score := score }

/-- The `ExpertMatcher.match_by_domains` method: walk the domains, collecting
(deduplicated, exclusion- and bounds-checked) catalog experts; if still
under `limit`, pad with the generalist (index 0) and TRIZ (index 5) experts;
stable-sort by relevance descending and take `limit`.  The source indexes
`self.experts[0]` and `self.experts[5]` unguarded in the padding branch
(an `IndexError` on a too-short catalog); the model reads a blank preset
there instead, so theorems about this path assume a catalog of length > 5. -/
def match_by_domains (experts : List ExpertPreset) (domains : List String)
    (limit : Nat) (exclude_indices : List Nat := []) : List MatchedExpert :=
  let matched := domains.foldl
    (fun matched domain =>
      match DOMAIN_TO_EXPERT_INDEX.lookup domain with
      | none => matched
      | some idxs =>
        idxs.foldl
          (fun matched idx =>
            if exclude_indices.contains idx || experts.length ≤ idx then matched
            else if matched.any (fun m => m.index == idx) then matched
            else matched ++ [matched_of experts idx domain 10])
          matched)
    []
  let matched :=
    if matched.length < limit then
      let matched :=
        if !exclude_indices.contains 0 && !matched.any (fun m => m.index == 0) then
          matched ++ [matched_of experts 0 "通用" 5]
        else matched
      if !exclude_indices.contains 5 && !matched.any (fun m => m.index == 5) then
        matched ++ [matched_of experts 5 "创新方法" 5]
      else matched
    else matched
  (matched.mergeSort (fun a b => decide (b.relevance_score ≤ a.relevance_score))).take limit

/-- Round-robin sub-problem assignment of
`ExpertMatcher.match_with_sub_problems`: the i-th sub-problem goes to the
i-th expert; overflow sub-problems are appended (newline-separated) to the
expert at `i % len(experts)`. -/
def assign_sub_problems (experts : List MatchedExpert) (sub_problems : List String) :
    List MatchedExpert :=
  sub_problems.enum.foldl
    (fun acc p =>
      if p.1 < acc.length then
        match acc.get? p.1 with
        | some e => acc.set p.1 { e with assigned_sub_problem := p.2 }
        | none => acc
      else
        let j := p.1 % acc.length
        match acc.get? j with
        | some e => acc.set j { e with assigned_sub_problem := e.assigned_sub_problem ++ "\n" ++ p.2 }
        | none => acc)
    experts

/-- The `ExpertMatcher.match_with_sub_problems` method. -/
def match_with_sub_problems (catalog : List ExpertPreset) (domains sub_problems : List String)
    (limit : Nat) : List MatchedExpert :=
  let experts := match_by_domains catalog domains limit
  if experts.isEmpty || sub_problems.isEmpty then experts
  else assign_sub_problems experts sub_problems

/-- The `ExpertMatcher.get_expert_by_index` method. -/
def get_expert_by_index (catalog : List ExpertPreset) (index : Nat) : Option ExpertPreset :=
  catalog.get? index

/-! ## Solve pipeline (`features/problem_solver.py`) -/

/-- A `SubProblemSolution`.  The float confidence and wall-clock duration
fields are not modelled. -/
structure SubProblemSolution where
  expert_name : String
  expert_role : String
  sub_problem : String
  solution : String
  model : String := ""
deriving Repr, DecidableEq

/-- A complete `ProblemSolution`. -/
structure ProblemSolution where
  original_problem : String
  intent : ProblemIntent
  matched_experts : List MatchedExpert
  sub_solutions : List SubProblemSolution
  final_solution : String
deriving Repr, DecidableEq

/-- User prompt of `_solve_single` (long template abbreviated; it depends on
the problem, the intent type and the assigned sub-problem exactly as in the
source). -/
def solve_user_prompt (problem : String) (intent : ProblemIntent)
    (expert : MatchedExpert) (sub_problem : String) : String :=
  "【技术问题深度分析与求解】…你是" ++ expert.name ++ "，专业领域是" ++ expert.expertise
    ++ "…【原始问题】\n" ++ problem ++ "\n\n【问题类型】" ++ intent.problem_type
    ++ "\n【你负责的子问题】\n" ++ sub_problem ++ "…"

/-- The `TechnicalProblemSolver._solve_single` method: one provider call per
expert, producing that expert's `SubProblemSolution` with
`expert_name = expert.name` on every path.  The source's `except` branch
(`"[求解失败] …"`) is unreachable through `LLMClient.get_completion_async`,
which never raises. -/
def solve_single (client : LLMClient) (problem : String) (intent : ProblemIntent)
    (expert : MatchedExpert) : SubProblemSolution :=
  let sub_problem :=
    if expert.assigned_sub_problem ≠ "" then expert.assigned_sub_problem else problem
  let solution := client.get_completion_async
      ("你是" ++ expert.role ++ "，擅长" ++ expert.expertise ++ "。…")
      (solve_user_prompt problem intent expert sub_problem)
      (some "gemini-3-pro-preview")
  { expert_name := expert.name, expert_role := expert.role,
    sub_problem := sub_problem, solution := solution,
    model := "gemini-3-pro-preview" }

/-- The `TechnicalProblemSolver._solve_parallel` method:
`asyncio.gather` over one `_solve_single` task per expert, which returns the
results in task-submission order — an order-preserving map. -/
def solve_parallel (client : LLMClient) (problem : String) (intent : ProblemIntent)
    (experts : List MatchedExpert) : List SubProblemSolution :=
  experts.map (solve_single client problem intent)

/-- The `TechnicalProblemSolver._integrate_solutions` method (one aggregate
call; template abbreviated; the `except` fallback to plain concatenation is
unreachable through the never-raising async client). -/
def integrate_solutions (client : LLMClient) (problem : String) (intent : ProblemIntent)
    (sub_solutions : List SubProblemSolution) : String :=
  let solutions_text := String.intercalate "\n\n"
      (sub_solutions.map (fun s => "【" ++ s.expert_name ++ "（" ++ s.expert_role ++ "）】\n" ++ s.solution))
  client.get_completion_async "你是技术方案整合专家，擅长综合多个专业领域的意见形成可执行方案。"
    ("请整合以下各专家的解决方案，形成一份完整的技术解决方案。…" ++ problem
      ++ "…" ++ String.intercalate ", " intent.domains ++ "…" ++ solutions_text)
    (some "gemini-3-pro-preview")

/-- The `TechnicalProblemSolver.solve` batch method: intent analysis, expert
selection (user-picked indices when the list is non-empty — Python list
truthiness — else automatic matching), generalist fallback when no expert
matched, the parallel solve fan-out, and integration.  `intent_llm` and
`parse` are the intent-analysis oracles of `analyze`. -/
def solve (client : LLMClient) (catalog : List ExpertPreset)
    (parse : String → Option ParsedIntent) (intent_llm : Except String String)
    (problem : String) (selected_expert_indices : List Nat)
    (max_experts : Nat := 5) : ProblemSolution :=
  let intent := analyze parse intent_llm problem
  let matched_experts :=
    if selected_expert_indices ≠ [] then
      (selected_expert_indices.take max_experts).foldl
        (fun acc idx =>
          match get_expert_by_index catalog idx with
          | some e =>
            let me : MatchedExpert :=
              { index := idx, name := e.name, role := e.role,
                expertise := e.expertise, matched_domain := "用户指定",
                relevance_score := 10 }
            acc ++ [me]
          | none => acc)
        []
    else
      match_with_sub_problems catalog intent.domains intent.sub_problems max_experts
  let matched_experts :=
    if matched_experts.isEmpty then match_by_domains catalog ["产品规划"] 1
    else matched_experts
  let sub_solutions := solve_parallel client problem intent matched_experts
  let final_solution := integrate_solutions client problem intent sub_solutions
  { original_problem := problem, intent := intent,
    matched_experts := matched_experts, sub_solutions := sub_solutions,
    final_solution := final_solution }

/-! ## Concrete probe data used to exercise the model at specific inputs -/

/-- Claimed successor function of the phase order stated in the specification
(OPENING, DEFINE_TOPIC, DIVERGE, DEEPEN, EVALUATE, INTEGRATE, OUTPUT), written
from the claim's words for comparison with `Facilitator.advance_phase`. -/
def claimed_next : BrainstormPhase → BrainstormPhase
  | .OPENING => .DEFINE_TOPIC
  | .DEFINE_TOPIC => .DIVERGE
  | .DIVERGE => .DEEPEN
  | .DEEPEN => .EVALUATE
  | .EVALUATE => .INTEGRATE
  | .INTEGRATE => .OUTPUT
  | .OUTPUT => .OUTPUT

/-- Setting the interrupt flag (`state.interrupt_signal = True`, as the
websocket human-message handlers do). -/
def set_interrupt (st : RunState) : RunState :=
  { st with interrupt_signal := true }

/-- Deterministic provider oracle: every call succeeds. -/
def probe_client : LLMClient :=
  { mock := false, async_mock := false,
    attempt := fun _ _ _ => Except.ok "intro",
    stream_attempt := fun _ _ _ => Except.ok ["c1", "c2"] }

/-- Provider oracle on which every network call raises. -/
def fail_client : LLMClient :=
  { mock := false, async_mock := false,
    attempt := fun _ _ _ => Except.error "E",
    stream_attempt := fun _ _ _ => Except.error "E" }

/-- A one-participant roster member. -/
def probe_agent : Agent :=
  { name := "A1", role := "r", expertise := "e", style := "s",
    personality_traits := [], model_name := "m" }

/-- A freshly initialized facilitator: phase OPENING, no round overrides. -/
def probe_fac : Facilitator :=
  { current_phase := .OPENING, custom_rounds := [], phase_rounds := [],
    model_name := "fm" }

/-- A freshly initialized one-agent session state. -/
def probe_state : RunState :=
  { session := { topic := "T", agents := [probe_agent], history := [], rounds := 0 },
    facilitator := probe_fac,
    interrupt_signal := false }

/-- The probe state with a pending interrupt. -/
def probe_state_int : RunState :=
  { probe_state with interrupt_signal := true }

/-- Message appended by one probe participant turn. -/
def turn_msg : Message :=
  { sender := "A1", content := "c1c2", mphase := some "opening",
    mrole := some "r", mround := some 0 }

/-- Events of one probe participant turn (no pause). -/
def turn_evs : List Event :=
  [.agent_typing "A1" "r", .message_chunk "A1" "c1", .message_chunk "A1" "c2",
   .message_complete "A1" "c1c2", .graph_update]

/-- Post-state of one probe participant turn from `probe_state_int`. -/
def turn_post : RunState :=
  { session := { topic := "T", agents := [probe_agent], history := [turn_msg], rounds := 0 },
    facilitator := probe_fac,
    interrupt_signal := false }

/-- Turn log of one probe participant turn from `probe_state_int`. -/
def turn_log : TurnLog :=
  { is_interrupt := true, tag := none, human_instruction := "",
    full_prompt := "AP\n\n【讨论历史】\n\n\n请开始你的发言：", full_response := "c1c2" }

/-- A six-entry expert catalog used to exercise the solve pipeline. -/
def probe_catalog : List ExpertPreset :=
  [{ name := "产品经理", role := "pm", expertise := "产品" },
   { name := "电控软件专家", role := "sw", expertise := "软件" },
   { name := "嵌入式软件专家", role := "emb", expertise := "嵌入式" },
   { name := "产品企划专家", role := "plan", expertise := "企划" },
   { name := "IoT专家", role := "iot", expertise := "IoT" },
   { name := "TRIZ创新专家", role := "triz", expertise := "创新" }]

/-- A facilitator already at the terminal phase. -/
def probe_fac_out : Facilitator :=
  { current_phase := .OUTPUT, custom_rounds := [], phase_rounds := [],
    model_name := "fm" }

/-- History entry of the probe facilitator intro (the provider response is
stripped by `get_completion`, hence the `trim`). -/
def probe_intro_msg : Message :=
  { sender := "主持人", content := "intro".trim, mtype := some "facilitator_intro",
    mphase := some "opening" }

/-- Events of one full probe phase invocation from `probe_state` (no pause). -/
def phase_evs : List Event :=
  [.phase_start "opening" "启动会话", .message "主持人" "intro".trim,
   .agent_typing "A1" "r", .message_chunk "A1" "c1", .message_chunk "A1" "c2",
   .message_complete "A1" "c1c2", .graph_update, .phase_complete "opening"]

/-- Post-state of one full probe phase invocation from `probe_state`. -/
def phase_post : RunState :=
  { session := { topic := "T", agents := [probe_agent],
                 history := [probe_intro_msg, turn_msg], rounds := 1 },
    facilitator := probe_fac,
    interrupt_signal := false }

/-! ## Helper lemmas -/

/-- With the pause schedule identically false the poll loop exits at once,
whatever the fuel. -/
theorem pause_loop_false (fuel t : Nat) :
    pause_loop (fun _ => false) fuel t = some ([], t) := by
  cases fuel <;> simp [pause_loop]

/-- A pause window of exact length `k` starting at the checkpoint produces
exactly `k` `paused` events and advances the clock by `k`. -/
theorem pause_loop_block (pause : Nat → Bool) :
    ∀ (k fuel t : Nat), (∀ i, i < k → pause (t + i) = true) → pause (t + k) = false →
      k ≤ fuel → pause_loop pause fuel t = some (List.replicate k Event.paused, t + k)
  | 0, fuel, t, _, hend, _ => by
    cases fuel <;> simp_all [pause_loop]
  | k + 1, fuel, t, hall, hend, hle => by
    have ht : pause t = true := by simpa using hall 0 (Nat.succ_pos k)
    obtain ⟨f, rfl⟩ : ∃ f, fuel = f + 1 := by
      cases fuel with
      | zero => exact absurd hle (by omega)
      | succ f => exact ⟨f, rfl⟩
    have ih := pause_loop_block pause k f (t + 1)
      (fun i hi => by simpa [Nat.add_assoc, Nat.add_comm 1 i] using hall (i + 1) (by omega))
      (by simpa [Nat.add_assoc, Nat.add_comm 1 k] using hend)
      (by omega)
    simp [pause_loop, ht, ih, List.replicate_succ]
    omega

/-- Characterization of a completed participant turn: the interrupt flag is
cleared, the log records the sampled flag, the instruction tag/text/prompt
built from it, and the session history gains exactly the accumulated agent
message, tagged with the pre-turn round counter; everything else in the
state is untouched. -/
theorem run_turn_some_spec {client : LLMClient} {pause : Nat → Bool} {fuel : Nat}
    {agent_prompt phase_value : String} {a : Agent} {st : RunState} {t : Nat}
    {evs : List Event} {st' : RunState} {t' : Nat} {log : TurnLog}
    (h : run_turn client pause fuel agent_prompt phase_value a st t = some (evs, st', t', log)) :
    st'.interrupt_signal = false ∧
    log.is_interrupt = st.interrupt_signal ∧
    log.tag = (build_human_instruction st.interrupt_signal st.session.history).1 ∧
    log.human_instruction = (build_human_instruction st.interrupt_signal st.session.history).2 ∧
    log.full_prompt = build_full_prompt agent_prompt (history_text st.session.history)
      (build_human_instruction st.interrupt_signal st.session.history).2 ∧
    st'.session.history = st.session.history ++
      [{ sender := a.name, content := log.full_response, mphase := some phase_value,
         mrole := some a.role, mround := some st.session.rounds }] ∧
    st'.session.rounds = st.session.rounds ∧
    st'.session.topic = st.session.topic ∧
    st'.session.agents = st.session.agents ∧
    st'.facilitator = st.facilitator := by
  rw [run_turn] at h
  cases hp : pause_loop pause fuel t with
  | none => simp [hp] at h
  | some p =>
    by_cases hi : st.interrupt_signal <;>
      · simp only [hi, if_true, if_false, hp] at h
        obtain ⟨h1, h2, h3, h4⟩ := by simpa using h
        subst h1 h2 h3 h4
        simp [hi, Session.add_message]

/-- Characterization of a completed roster pass: one appended message per
participant, all tagged with the unchanged pre-pass round counter. -/
theorem run_agents_spec {client : LLMClient} {pause : Nat → Bool} {fuel : Nat}
    {agent_prompt phase_value : String} :
    ∀ (agents : List Agent) (st : RunState) (t : Nat) {evs : List Event}
      {st' : RunState} {t' : Nat},
      run_agents client pause fuel agent_prompt phase_value agents st t = some (evs, st', t') →
      ∃ tail, st'.session.history = st.session.history ++ tail ∧
        tail.length = agents.length ∧
        (∀ m ∈ tail, m.mround = some st.session.rounds) ∧
        st'.session.rounds = st.session.rounds ∧
        st'.session.topic = st.session.topic ∧
        st'.session.agents = st.session.agents ∧
        st'.facilitator = st.facilitator
  | [], st, t, evs, st', t', h => by
    simp only [run_agents, Option.some.injEq] at h
    obtain ⟨h1, h2, h3⟩ := by simpa using h
    subst h1 h2 h3
    exact ⟨[], by simp, rfl, by simp, rfl, rfl, rfl, rfl⟩
  | a :: rest, st, t, evs, st', t', h => by
    rw [run_agents] at h
    cases h1 : run_turn client pause fuel agent_prompt phase_value a st t with
    | none => simp [h1] at h
    | some q =>
      obtain ⟨evs1, st1, t1, log1⟩ := q
      simp only [h1] at h
      cases h2 : run_agents client pause fuel agent_prompt phase_value rest st1 t1 with
      | none => simp [h2] at h
      | some r =>
        obtain ⟨evs2, st2, t2⟩ := r
        simp only [h2, Option.some.injEq] at h
        obtain ⟨hevs, hst, ht⟩ := by simpa using h
        subst hevs hst ht
        obtain ⟨_, _, _, _, _, hhist1, hrounds1, htopic1, hagents1, hfac1⟩ :=
          run_turn_some_spec h1
        obtain ⟨tail2, hhist2, hlen2, hround2, hrounds2, htopic2, hagents2, hfac2⟩ :=
          run_agents_spec rest st1 t1 h2
        let msg : Message :=
          { sender := a.name, content := log1.full_response,
            mphase := some phase_value, mrole := some a.role,
            mround := some st.session.rounds }
        refine ⟨msg :: tail2, ?_, by simp [hlen2], ?_, ?_, ?_, ?_, ?_⟩
        · rw [hhist2, hhist1]; simp
        · intro m hm
          rcases List.mem_cons.mp hm with rfl | hm2
          · rfl
          · rw [hround2 m hm2, hrounds1]
        · rw [hrounds2, hrounds1]
        · rw [htopic2, htopic1]
        · rw [hagents2, hagents1]
        · rw [hfac2, hfac1]

/-- Characterization of a completed round loop: `remaining × roster` appended
messages, all tagged with the unchanged round counter. -/
theorem run_rounds_spec {client : LLMClient} {pause : Nat → Bool} {fuel : Nat}
    {agent_prompt phase_value : String} {agents : List Agent} {total : Nat} :
    ∀ (remaining : Nat) (st : RunState) (t : Nat) {evs : List Event}
      {st' : RunState} {t' : Nat},
      run_rounds client pause fuel agent_prompt phase_value agents total remaining st t
        = some (evs, st', t') →
      ∃ tail, st'.session.history = st.session.history ++ tail ∧
        tail.length = remaining * agents.length ∧
        (∀ m ∈ tail, m.mround = some st.session.rounds) ∧
        st'.session.rounds = st.session.rounds ∧
        st'.session.topic = st.session.topic ∧
        st'.session.agents = st.session.agents ∧
        st'.facilitator = st.facilitator
  | 0, st, t, evs, st', t', h => by
    simp only [run_rounds, Option.some.injEq] at h
    obtain ⟨h1, h2, h3⟩ := by simpa using h
    subst h1 h2 h3
    exact ⟨[], by simp, by simp, by simp, rfl, rfl, rfl, rfl⟩
  | remaining + 1, st, t, evs, st', t', h => by
    rw [run_rounds] at h
    by_cases htot : total > 1 <;> simp only [htot, if_true, if_false] at h
    case pos =>
      cases h1 : run_agents client pause fuel agent_prompt phase_value agents st (t + 1) with
      | none => simp [h1] at h
      | some q =>
        obtain ⟨evs1, st1, t1⟩ := q
        simp only [h1] at h
        cases h2 : run_rounds client pause fuel agent_prompt phase_value agents total
            remaining st1 t1 with
        | none => simp [h2] at h
        | some r =>
          obtain ⟨evs2, st2, t2⟩ := r
          simp only [h2] at h
          obtain ⟨hevs, hst, ht⟩ := by simpa using h
          subst hst
          obtain ⟨tail1, hhist1, hlen1, hround1, hrounds1, htopic1, hagents1, hfac1⟩ :=
            run_agents_spec agents st _ h1
          obtain ⟨tail2, hhist2, hlen2, hround2, hrounds2, htopic2, hagents2, hfac2⟩ :=
            run_rounds_spec remaining st1 t1 h2
          refine ⟨tail1 ++ tail2, ?_, ?_, ?_, ?_, ?_, ?_, ?_⟩
          · rw [hhist2, hhist1]; simp
          · simp [hlen1, hlen2, Nat.succ_mul, Nat.add_comm]
          · intro m hm
            rcases List.mem_append.mp hm with hm1 | hm2
            · exact hround1 m hm1
            · rw [hround2 m hm2, hrounds1]
          · rw [hrounds2, hrounds1]
          · rw [htopic2, htopic1]
          · rw [hagents2, hagents1]
          · rw [hfac2, hfac1]
    case neg =>
      cases h1 : run_agents client pause fuel agent_prompt phase_value agents st t with
      | none => simp [h1] at h
      | some q =>
        obtain ⟨evs1, st1, t1⟩ := q
        simp only [h1] at h
        cases h2 : run_rounds client pause fuel agent_prompt phase_value agents total
            remaining st1 t1 with
        | none => simp [h2] at h
        | some r =>
          obtain ⟨evs2, st2, t2⟩ := r
          simp only [h2] at h
          obtain ⟨hevs, hst, ht⟩ := by simpa using h
          subst hst
          obtain ⟨tail1, hhist1, hlen1, hround1, hrounds1, htopic1, hagents1, hfac1⟩ :=
            run_agents_spec agents st _ h1
          obtain ⟨tail2, hhist2, hlen2, hround2, hrounds2, htopic2, hagents2, hfac2⟩ :=
            run_rounds_spec remaining st1 t1 h2
          refine ⟨tail1 ++ tail2, ?_, ?_, ?_, ?_, ?_, ?_, ?_⟩
          · rw [hhist2, hhist1]; simp
          · simp [hlen1, hlen2, Nat.succ_mul, Nat.add_comm]
          · intro m hm
            rcases List.mem_append.mp hm with hm1 | hm2
            · exact hround1 m hm1
            · rw [hround2 m hm2, hrounds1]
          · rw [hrounds2, hrounds1]
          · rw [htopic2, htopic1]
          · rw [hagents2, hagents1]
          · rw [hfac2, hfac1]

/-- A participant turn always completes when the pause schedule is false. -/
theorem run_turn_false_some (client : LLMClient) (fuel : Nat)
    (agent_prompt phase_value : String) (a : Agent) (st : RunState) (t : Nat) :
    ∃ r, run_turn client (fun _ => false) fuel agent_prompt phase_value a st t = some r := by
  rw [run_turn]
  simp [pause_loop_false]

/-- A roster pass always completes when the pause schedule is false. -/
theorem run_agents_false_some (client : LLMClient) (fuel : Nat)
    (agent_prompt phase_value : String) :
    ∀ (agents : List Agent) (st : RunState) (t : Nat),
      ∃ r, run_agents client (fun _ => false) fuel agent_prompt phase_value agents st t = some r
  | [], st, t => ⟨(([], st, t) : List Event × RunState × Nat), rfl⟩
  | a :: rest, st, t => by
    obtain ⟨⟨evs1, st1, t1, log1⟩, h1⟩ :=
      run_turn_false_some client fuel agent_prompt phase_value a st t
    obtain ⟨⟨evs2, st2, t2⟩, h2⟩ :=
      run_agents_false_some client fuel agent_prompt phase_value rest st1 t1
    exact ⟨(evs1 ++ evs2, st2, t2), by rw [run_agents]; simp [h1, h2]⟩

/-- The round loop always completes when the pause schedule is false. -/
theorem run_rounds_false_some (client : LLMClient) (fuel : Nat)
    (agent_prompt phase_value : String) (agents : List Agent) (total : Nat) :
    ∀ (remaining : Nat) (st : RunState) (t : Nat),
      ∃ r, run_rounds client (fun _ => false) fuel agent_prompt phase_value agents total
        remaining st t = some r
  | 0, st, t => ⟨(([], st, t) : List Event × RunState × Nat), rfl⟩
  | remaining + 1, st, t => by
    obtain ⟨⟨evs1, st1, t1⟩, h1⟩ := run_agents_false_some client fuel agent_prompt
      phase_value agents st (if total > 1 then t + 1 else t)
    obtain ⟨⟨evs2, st2, t2⟩, h2⟩ := run_rounds_false_some client fuel agent_prompt
      phase_value agents total remaining st1 t1
    refine ⟨((if total > 1 then [Event.round_start (total - (remaining + 1) + 1) total]
      else []) ++ evs1 ++ evs2, st2, t2), ?_⟩
    rw [run_rounds]
    by_cases htot : total > 1 <;> simp only [htot, if_true, if_false] at h1 ⊢ <;>
      simp [h1, h2]

/-- Negative form of `run_rounds_false_some`, convenient for discharging
impossible `none` branches. -/
theorem run_rounds_false_ne_none (client : LLMClient) (fuel : Nat)
    (agent_prompt phase_value : String) (agents : List Agent) (total remaining : Nat)
    (st : RunState) (t : Nat) :
    run_rounds client (fun _ => false) fuel agent_prompt phase_value agents total
      remaining st t ≠ none := by
  obtain ⟨r, hr⟩ := run_rounds_false_some client fuel agent_prompt phase_value agents
    total remaining st t
  simp [hr]

/-- A phase invocation always completes when the pause schedule is false. -/
theorem generate_phase_stream_false_isSome (client : LLMClient) (fuel : Nat)
    (st : RunState) (t : Nat) :
    (generate_phase_stream client (fun _ => false) fuel st t).isSome = true := by
  simp only [generate_phase_stream]
  split
  · split
    · next heq => exact absurd heq (run_rounds_false_ne_none _ _ _ _ _ _ _ _ _)
    · simp
  · simp

/-- Characterization of a completed phase invocation: the history grows by the
facilitator intro plus `runner_rounds × roster` agent messages, the round
counter gains exactly one when the looked-up round count is positive and is
unchanged otherwise, every appended message carries either no round tag (the
intro) or the pre-invocation round value, and the roster/topic are
untouched. -/
theorem generate_phase_stream_spec {client : LLMClient} {pause : Nat → Bool} {fuel : Nat}
    {st : RunState} {t : Nat} {evs : List Event} {st' : RunState} {t' : Nat}
    (h : generate_phase_stream client pause fuel st t = some (evs, st', t')) :
    st'.session.history.length
      = st.session.history.length + 1 + runner_rounds st.facilitator * st.session.agents.length ∧
    st'.session.rounds
      = st.session.rounds + (if runner_rounds st.facilitator > 0 then 1 else 0) ∧
    (∃ tail, st'.session.history = st.session.history ++ tail ∧
      ∀ m ∈ tail, m.mround = none ∨ m.mround = some st.session.rounds) ∧
    st'.session.agents = st.session.agents ∧
    st'.session.topic = st.session.topic := by
  simp only [generate_phase_stream] at h
  split at h
  · next hpr =>
    split at h
    · next heq => exact absurd h (by simp)
    · next evs2 st2 t2 heq =>
      obtain ⟨hevs, hst, ht⟩ := by simpa using h
      subst hst
      obtain ⟨tail2, hhist2, hlen2, hround2, hrounds2, htopic2, hagents2, hfac2⟩ :=
        run_rounds_spec _ _ _ heq
      simp only [Session.add_message] at hhist2 hlen2 hround2 hrounds2 htopic2 hagents2
      refine ⟨?_, ?_, ⟨intro_message client st :: tail2, ?_, ?_⟩, ?_, ?_⟩
      · simp only [hhist2, hlen2, List.length_append, List.length_singleton]
      · simp [hrounds2, hpr]
      · simp [hhist2]
      · intro m hm
        rcases List.mem_cons.mp hm with rfl | hm2
        · exact Or.inl rfl
        · exact Or.inr (by simpa using hround2 m hm2)
      · simpa using hagents2
      · simpa using htopic2
  · next hpr =>
    obtain ⟨hevs, hst, ht⟩ := by simpa using h
    subst hst
    have hzero : runner_rounds st.facilitator = 0 := by omega
    refine ⟨?_, ?_, ⟨[intro_message client st], ?_, ?_⟩, ?_, ?_⟩
    · simp [Session.add_message, hzero]
    · simp [Session.add_message, hzero]
    · simp [Session.add_message]
    · intro m hm
      rcases List.mem_singleton.mp hm with rfl
      exact Or.inl rfl
    · simp [Session.add_message]
    · simp [Session.add_message]

/-- The fallback intent always carries a non-empty domain list. -/
theorem fallback_intent_domains_ne_nil (problem quick_type : String)
    (quick_domains : List String) :
    (fallback_intent problem quick_type quick_domains).domains ≠ [] := by
  unfold fallback_intent
  by_cases h : quick_domains ≠ [] <;> simp [h]

/-- If every model in the list fails, the synchronous fallback loop returns
`none`. -/
theorem try_models_all_fail {attempt : String → String → String → Except String String}
    {system_prompt user_prompt : String} :
    ∀ ms : List String, (∀ m ∈ ms, ∃ e, attempt m system_prompt user_prompt = .error e) →
      try_models attempt system_prompt user_prompt ms = none
  | [], _ => rfl
  | m :: rest, h => by
    obtain ⟨e, he⟩ := h m (by simp)
    simp only [try_models, he]
    exact try_models_all_fail rest (fun m' hm => h m' (by simp [hm]))

/-- If every model in the list fails, the async fallback loop reports an
error. -/
theorem try_models_async_all_fail {attempt : String → String → String → Except String String}
    {system_prompt user_prompt : String} :
    ∀ (ms : List String) (le : String),
      (∀ m ∈ ms, ∃ e, attempt m system_prompt user_prompt = .error e) →
      ∃ e', try_models_async attempt system_prompt user_prompt ms le = .error e'
  | [], le, _ => ⟨le, rfl⟩
  | m :: rest, le, h => by
    obtain ⟨e, he⟩ := h m (by simp)
    simp only [try_models_async, he]
    exact try_models_async_all_fail rest e (fun m' hm => h m' (by simp [hm]))

/-- The synchronous fallback loop returns the stripped response of the first
succeeding model. -/
theorem try_models_first_success {attempt : String → String → String → Except String String}
    {system_prompt user_prompt : String} :
    ∀ (pre : List String) (m : String) (post : List String) (response : String),
      (∀ m' ∈ pre, ∃ e, attempt m' system_prompt user_prompt = .error e) →
      attempt m system_prompt user_prompt = .ok response →
      try_models attempt system_prompt user_prompt (pre ++ m :: post) = some response.trim
  | [], m, post, response, _, hok => by simp [try_models, hok]
  | p :: pre, m, post, response, hpre, hok => by
    obtain ⟨e, he⟩ := hpre p (by simp)
    simp only [List.cons_append, try_models, he]
    exact try_models_first_success pre m post response
      (fun m' hm => hpre m' (by simp [hm])) hok

/-- The async fallback loop returns the stripped response of the first
succeeding model. -/
theorem try_models_async_first_success
    {attempt : String → String → String → Except String String}
    {system_prompt user_prompt : String} :
    ∀ (pre : List String) (m : String) (post : List String) (response le : String),
      (∀ m' ∈ pre, ∃ e, attempt m' system_prompt user_prompt = .error e) →
      attempt m system_prompt user_prompt = .ok response →
      try_models_async attempt system_prompt user_prompt (pre ++ m :: post) le
        = .ok response.trim
  | [], m, post, response, le, _, hok => by simp [try_models_async, hok]
  | p :: pre, m, post, response, le, hpre, hok => by
    obtain ⟨e, he⟩ := hpre p (by simp)
    simp only [List.cons_append, try_models_async, he]
    exact try_models_async_first_success pre m post response e
      (fun m' hm => hpre m' (by simp [hm])) hok

/-! ## Claims -/

/-- Claim C5: `advance_phase` moves the phase state machine to the next phase
in the fixed order OPENING, DEFINE_TOPIC, DIVERGE, DEEPEN, EVALUATE,
INTEGRATE, OUTPUT and returns `true`, except at the terminal phase OUTPUT
where it returns `false` and leaves the state unchanged; repeated calls
after reaching OUTPUT always return `false` and never change the current
phase, and no call skips a phase or moves backwards. -/
theorem C5_advance_phase_linear_terminal (f : Facilitator) :
    (f.current_phase = .OUTPUT →
      f.advance_phase = (false, f) ∧
      (∀ n, f.advance_iter n = f) ∧
      (∀ n, ((f.advance_iter n).advance_phase).1 = false)) ∧
    (f.current_phase ≠ .OUTPUT →
      f.advance_phase.1 = true ∧
      (f.advance_phase.2).current_phase = claimed_next f.current_phase ∧
      (f.advance_phase.2).custom_rounds = f.custom_rounds ∧
      (f.advance_phase.2).phase_rounds = f.phase_rounds ∧
      (f.advance_phase.2).model_name = f.model_name) := by
  obtain ⟨cp, cr, pr, mn⟩ := f
  cases cp
  case OUTPUT =>
    have hadv : Facilitator.advance_phase ⟨.OUTPUT, cr, pr, mn⟩
        = (false, ⟨.OUTPUT, cr, pr, mn⟩) := rfl
    have hiter : ∀ n, Facilitator.advance_iter ⟨.OUTPUT, cr, pr, mn⟩ n
        = ⟨.OUTPUT, cr, pr, mn⟩ := by
      intro n
      induction n with
      | zero => rfl
      | succ k ih =>
        simp only [Facilitator.advance_iter]
        rw [hadv]
        exact ih
    exact ⟨fun _ => ⟨hadv, hiter, fun n => by rw [hiter n, hadv]⟩,
      fun hne => absurd rfl hne⟩
  all_goals
    exact ⟨fun h => BrainstormPhase.noConfusion h, fun _ => ⟨rfl, rfl, rfl, rfl, rfl⟩⟩

/-- Witness for C5 at the terminal phase: advancing from OUTPUT returns
`false` and keeps the facilitator unchanged. -/
theorem C5_witness : probe_fac_out.advance_phase = (false, probe_fac_out) :=
  ((C5_advance_phase_linear_terminal probe_fac_out).1 rfl).1

/-- Claim C7: if the intent-analysis provider call raises or its output fails
to parse as the expected schema, `analyze` never raises (it is a total
function here) and still returns a `ProblemIntent` whose `domains` list is
non-empty, falling back to keyword detection and to the default generalist
domain when no keyword matches. -/
theorem C7_analyze_degrades_to_nonempty_domains
    (parse : String → Option ParsedIntent) (llm_result : Except String String)
    (problem : String)
    (h : ∀ resp, llm_result = .ok resp → parse (extract_json resp).trim = none) :
    (analyze parse llm_result problem).domains ≠ [] := by
  cases llm_result with
  | error e =>
    simpa [analyze] using
      fallback_intent_domains_ne_nil problem (quick_type_detect problem)
        (quick_domain_detect problem)
  | ok resp =>
    have hp := h resp rfl
    simpa [analyze, hp] using
      fallback_intent_domains_ne_nil problem (quick_type_detect problem)
        (quick_domain_detect problem)

/-- Witness for C7: a raising provider with an unparseable output oracle on a
problem without domain keywords still yields non-empty domains. -/
theorem C7_witness : (analyze (fun _ => none) (Except.error "boom") "测试").domains ≠ [] :=
  C7_analyze_degrades_to_nonempty_domains (fun _ => none) (Except.error "boom") "测试"
    (fun _ hr => Except.noConfusion hr)

/-- Claim C9: for a session id whose state is missing from the registry, or
whose session or facilitator is not initialized, the full-session runner
emits exactly one `error` event and returns without emitting any other
event. -/
theorem C9_uninitialized_session_single_error (registry : List (String × SessionStateO))
    (client : LLMClient) (pause : Nat → Bool) (fuel : Nat) (session_id : String)
    (h : registry.lookup session_id = none ∨
      ∃ sst, registry.lookup session_id = some sst ∧
        (sst.session = none ∨ sst.facilitator = none)) :
    run_full_session_stream registry client pause fuel session_id
      = some ([Event.error "Session not initialized"], none) := by
  rcases h with hnone | ⟨sst, hsome, hbad⟩
  · simp [run_full_session_stream, hnone]
  · obtain ⟨os, ofa, oi⟩ := sst
    rcases hbad with hb | hb
    · simp only at hb
      subst hb
      cases ofa <;> simp [run_full_session_stream, hsome]
    · simp only at hb
      subst hb
      cases os <;> simp [run_full_session_stream, hsome]

/-- Witness for C9: an empty registry produces the single error event. -/
theorem C9_witness : run_full_session_stream [] probe_client (fun _ => false) 1 "sid"
    = some ([Event.error "Session not initialized"], none) :=
  C9_uninitialized_session_single_error [] probe_client (fun _ => false) 1 "sid" (Or.inl rfl)

/-- Claim C8: the non-streaming completion calls never raise: outside mock
mode each model of the fallback chain (requested model then configured
fallbacks) is tried in order — a first success is returned stripped, with
earlier models taking precedence — and when every attempt fails the call
returns the sentinel error string instead of raising, for both the
synchronous and the async variant. -/
theorem C8_completion_fallback_chain_sentinel (c : LLMClient)
    (system_prompt user_prompt model : String)
    (hmock : c.mock = false) (hamock : c.async_mock = false) :
    ((∀ m ∈ candidate_models model, ∃ e, c.attempt m system_prompt user_prompt = .error e) →
      c.get_completion system_prompt user_prompt (some model)
        = sync_error_sentinel (candidate_models model) ∧
      ∃ e, c.get_completion_async system_prompt user_prompt (some model)
        = async_error_sentinel e) ∧
    (∀ pre m post response, candidate_models model = pre ++ m :: post →
      (∀ m' ∈ pre, ∃ e, c.attempt m' system_prompt user_prompt = .error e) →
      c.attempt m system_prompt user_prompt = .ok response →
      c.get_completion system_prompt user_prompt (some model) = response.trim ∧
      c.get_completion_async system_prompt user_prompt (some model) = response.trim) := by
  constructor
  · intro hall
    constructor
    · have hnone := try_models_all_fail (candidate_models model) hall
      simp [LLMClient.get_completion, hmock, hnone]
    · obtain ⟨e', he'⟩ := try_models_async_all_fail (candidate_models model) "None" hall
      exact ⟨e', by simp [LLMClient.get_completion_async, hamock, he']⟩
  · intro pre m post response hchain hpre hok
    constructor
    · have hres := try_models_first_success pre m post response hpre hok
      simp [LLMClient.get_completion, hmock, hchain, hres]
    · have hres := try_models_async_first_success pre m post response "None" hpre hok
      simp [LLMClient.get_completion_async, hamock, hchain, hres]

/-- Witness for C8: with every attempt failing, the synchronous call returns
the sentinel string. -/
theorem C8_witness :
    fail_client.get_completion "s" "u" (some "m")
      = sync_error_sentinel (candidate_models "m") :=
  ((C8_completion_fallback_chain_sentinel fail_client "s" "u" "m" rfl rfl).1
    (fun _ _ => ⟨"E", rfl⟩)).1

/-- Claim C3: the interrupt flag is consumed exactly once — after one
participant turn from a state with the flag set, the flag is false; a second
consecutive turn (any provider, any schedule) without re-setting the flag
does not choose the urgent wording variant for its prompt instruction; and
setting the flag repeatedly before consumption is the same as setting it
once. -/
theorem C3_interrupt_flag_consumed_once (client : LLMClient) (pause : Nat → Bool)
    (fuel : Nat) (agent_prompt phase_value : String) (a : Agent) (st : RunState)
    (t : Nat) (evs : List Event) (st' : RunState) (t' : Nat) (log : TurnLog)
    (hset : st.interrupt_signal = true)
    (h : run_turn client pause fuel agent_prompt phase_value a st t
      = some (evs, st', t', log)) :
    st'.interrupt_signal = false ∧
    (∀ (client2 : LLMClient) (pause2 : Nat → Bool) (fuel2 : Nat)
        (agent_prompt2 phase_value2 : String) (a2 : Agent) (t2 : Nat)
        (evs2 : List Event) (st'' : RunState) (t'' : Nat) (log2 : TurnLog),
      run_turn client2 pause2 fuel2 agent_prompt2 phase_value2 a2 st' t2
        = some (evs2, st'', t'', log2) →
      log2.tag ≠ some urgent_tag) ∧
    (∀ s : RunState, set_interrupt (set_interrupt s) = set_interrupt s) := by
  obtain ⟨hint, _, _, _, _, _, _, _, _, _⟩ := run_turn_some_spec h
  refine ⟨hint, ?_, fun s => rfl⟩
  intro client2 pause2 fuel2 ap2 pv2 a2 t2 evs2 st'' t'' log2 h2
  obtain ⟨_, _, htag2, _, _, _, _, _, _, _⟩ := run_turn_some_spec h2
  rw [htag2, hint]
  rcases hfm : find_human_message st'.session.history with _ | m
  · simp [build_human_instruction, hfm]
  · simp only [build_human_instruction, hfm, Bool.false_eq_true, if_false,
      ite_false, Option.some.injEq, ne_eq]
    decide

/-- Witness for C3: one probe turn from the interrupted probe state clears the
flag. -/
theorem C3_witness : turn_post.interrupt_signal = false :=
  (C3_interrupt_flag_consumed_once probe_client (fun _ => false) 1 "AP" "opening"
    probe_agent probe_state_int 0 turn_evs turn_post 5 turn_log rfl (by decide)).1

/-- Claim C10: a participant turn samples and clears the interrupt flag
unconditionally before scanning the last three history entries for a human
message; when the flag is set but no human message is among the last three
entries, the turn injects no instruction at all into its prompt (no tag is
chosen), yet the flag is still reset to false — the interrupt is silently
discarded. -/
theorem C10_interrupt_discarded_without_human (client : LLMClient) (pause : Nat → Bool)
    (fuel : Nat) (agent_prompt phase_value : String) (a : Agent) (st : RunState)
    (t : Nat) (evs : List Event) (st' : RunState) (t' : Nat) (log : TurnLog)
    (hset : st.interrupt_signal = true)
    (hnohuman : find_human_message st.session.history = none)
    (h : run_turn client pause fuel agent_prompt phase_value a st t
      = some (evs, st', t', log)) :
    st'.interrupt_signal = false ∧
    log.human_instruction = "" ∧
    log.tag = none ∧
    log.full_prompt
      = build_full_prompt agent_prompt (history_text st.session.history) "" := by
  obtain ⟨hint, _, htag, hhi, hfp, _, _, _, _, _⟩ := run_turn_some_spec h
  refine ⟨hint, ?_, ?_, ?_⟩
  · rw [hhi]
    simp [build_human_instruction, hnohuman]
  · rw [htag]
    simp [build_human_instruction, hnohuman]
  · rw [hfp]
    simp [build_human_instruction, hnohuman]

/-- Witness for C10: the probe turn from the interrupted probe state (empty
history, hence no human message) clears the flag and injects nothing. -/
theorem C10_witness : turn_post.interrupt_signal = false ∧
    turn_log.human_instruction = "" ∧ turn_log.tag = none ∧
    turn_log.full_prompt = build_full_prompt "AP" (history_text []) "" :=
  C10_interrupt_discarded_without_human probe_client (fun _ => false) 1 "AP" "opening"
    probe_agent probe_state_int 0 turn_evs turn_post 5 turn_log rfl rfl (by decide)

/-- Claim C6 (counterexample): the claim as stated — whenever `is_paused`
becomes true at any point mid-phase, at least one `paused` event and no
further `message_chunk` events are emitted — fails on the code: the pause
flag is only polled at the start of a participant turn.  On the probe phase
with a two-chunk stream and a schedule that becomes true at clock 4 (after
the turn checkpoint at clock 2, mid-stream), the run emits a `message_chunk`
at index 4 — i.e. while the schedule is true — and no `paused` event at
all. -/
theorem C6_counterexample :
    ((fun n => decide (4 ≤ n)) 4 = true) ∧
    (generate_phase_stream probe_client (fun n => decide (4 ≤ n)) 1 probe_state 0).map
      (fun r => r.1.get? 4) = some (some (Event.message_chunk "A1" "c2")) ∧
    (generate_phase_stream probe_client (fun n => decide (4 ≤ n)) 1 probe_state 0).map
      (fun r => r.1.contains Event.paused) = some false :=
  ⟨by decide, by decide, by decide⟩

/-- Claim C6 (amended): pause takes effect at the participant-turn
checkpoint — if `is_paused` is true at a turn checkpoint and stays true for
exactly `k ≥ 1` polls, the turn emits exactly `k` `paused` events first
(and no `message_chunk` among them), then resumes with the very same
pending participant: the remainder of the run, its post-state and its log
equal those of the same turn run without pause, so the participant is
neither skipped nor restarted. -/
theorem C6_pause_resumes_same_participant (client : LLMClient) (fuel : Nat)
    (agent_prompt phase_value : String) (a : Agent) (st : RunState) (t k : Nat)
    (pause : Nat → Bool)
    (hk0 : 0 < k) (hall : ∀ i, i < k → pause (t + i) = true)
    (hend : pause (t + k) = false) (hfuel : k ≤ fuel) :
    run_turn client pause fuel agent_prompt phase_value a st t
      = (run_turn client (fun _ => false) fuel agent_prompt phase_value a st (t + k)).map
          (fun r => (List.replicate k Event.paused ++ r.1, r.2)) ∧
    (∀ evs st' t' log,
      run_turn client pause fuel agent_prompt phase_value a st t
        = some (evs, st', t', log) →
      evs.take k = List.replicate k Event.paused ∧
      Event.paused ∈ evs ∧
      evs.get? k = some (Event.agent_typing a.name a.role) ∧
      ∀ i, i < k → ∀ s c, evs.get? i ≠ some (Event.message_chunk s c)) := by
  have hploop := pause_loop_block pause k fuel t hall hend hfuel
  have hmain : run_turn client pause fuel agent_prompt phase_value a st t
      = (run_turn client (fun _ => false) fuel agent_prompt phase_value a st (t + k)).map
          (fun r => (List.replicate k Event.paused ++ r.1, r.2)) := by
    rw [run_turn, run_turn, hploop, pause_loop_false]
    simp
  refine ⟨hmain, ?_⟩
  intro evs st' t' log h
  rw [hmain] at h
  cases hru : run_turn client (fun _ => false) fuel agent_prompt phase_value a st (t + k) with
  | none => rw [hru] at h; simp at h
  | some r =>
    rw [hru] at h
    obtain ⟨r_evs, r_st, r_t, r_log⟩ := r
    obtain ⟨hevs, -, -⟩ := by simpa using h
    rw [run_turn, pause_loop_false] at hru
    obtain ⟨hru_evs, -, -⟩ := by simpa using hru
    obtain ⟨rest, hrest⟩ : ∃ rest, r_evs = Event.agent_typing a.name a.role :: rest :=
      ⟨_, by rw [← hru_evs]⟩
    have hevs2 : evs = List.replicate k Event.paused
        ++ (Event.agent_typing a.name a.role :: rest) := by
      rw [← hevs, hrest]
    refine ⟨?_, ?_, ?_, ?_⟩
    · rw [hevs2, List.take_left' (by simp)]
    · rw [hevs2]
      exact List.mem_append.mpr (Or.inl (List.mem_replicate.mpr ⟨by omega, rfl⟩))
    · rw [hevs2, List.get?_append_right (by simp)]
      simp
    · intro i hi s c hcontra
      rw [hevs2, List.get?_append (by simp [hi])] at hcontra
      have hmem : Event.message_chunk s c ∈ List.replicate k Event.paused :=
        List.get?_mem hcontra
      exact absurd (List.eq_of_mem_replicate hmem) (by simp)

/-- Witness for the amended C6 theorem: a one-poll pause window at the turn
checkpoint prepends exactly one `paused` event to the unpaused turn. -/
theorem C6_witness :
    run_turn probe_client (fun n => decide (n = 0)) 1 "AP" "opening" probe_agent
        probe_state 0
      = (run_turn probe_client (fun _ => false) 1 "AP" "opening" probe_agent
          probe_state (0 + 1)).map
          (fun r => (List.replicate 1 Event.paused ++ r.1, r.2)) :=
  (C6_pause_resumes_same_participant probe_client 1 "AP" "opening" probe_agent
    probe_state 0 1 (fun n => decide (n = 0)) (by decide)
    (fun i hi => by
      have hi0 : i = 0 := Nat.lt_one_iff.mp hi
      subst hi0
      decide)
    (by decide) (by decide)).1

/-- Claim C1 (counterexample): the claim as stated says the per-phase round
count is the session override when present and otherwise the phase's static
default (0 for OPENING), so a single-phase invocation at OPENING with no
overrides should append exactly one message (the facilitator opening).  On
a freshly initialized one-agent session at OPENING, the runner actually
appends two messages: `generate_phase_stream` reads
`phase_rounds.get(phase, 1)` — a hard-coded default of 1 — and never
consults the static `PHASE_CONFIG` round count, so the agent round runs. -/
theorem C1_counterexample :
    (generate_phase_stream probe_client (fun _ => false) 1 probe_state 0).map
      (fun r => r.2.1.session.history.length) = some 2 ∧
    probe_state.session.history.length + 1
      + (probe_state.facilitator.get_phase_config).rounds
        * probe_state.session.agents.length = 1 ∧
    (2 : Nat) ≠ 1 :=
  ⟨by decide, by decide, by decide⟩

/-- Claim C1 (amended): a single-phase invocation on an initialized session
(absent pauses; provider failures are absorbed as sentinel content) appends
to the session history exactly one facilitator-opening message plus
`round_count × participant_count` agent messages, where `round_count` is the
session's override for that phase id when present and otherwise the
hard-coded default 1 (`phase_rounds.get(phase, 1)`) — the static
`PHASE_CONFIG` defaults are not consulted, so OPENING and OUTPUT also get
one agent round unless explicitly overridden to 0. -/
theorem C1_phase_runner_message_count (client : LLMClient) (fuel : Nat)
    (st : RunState) (t : Nat) :
    ∃ evs st' t', generate_phase_stream client (fun _ => false) fuel st t
        = some (evs, st', t') ∧
      st'.session.history.length
        = st.session.history.length + 1
          + runner_rounds st.facilitator * st.session.agents.length := by
  obtain ⟨r, hr⟩ := Option.isSome_iff_exists.mp
    (generate_phase_stream_false_isSome client fuel st t)
  obtain ⟨evs, st', t'⟩ := r
  exact ⟨evs, st', t', hr, (generate_phase_stream_spec hr).1⟩

/-- Claim C4: over one whole phase invocation that completes, the session
round counter increases by exactly 1 when the runner's round count is
positive and is unchanged when it is 0 — a single increment per invocation
regardless of how many rounds ran inside it, and never mid-round: every
message appended during the invocation carries either no round tag (the
facilitator opening) or the pre-invocation round value. -/
theorem C4_round_counter_single_increment (client : LLMClient) (pause : Nat → Bool)
    (fuel : Nat) (st : RunState) (t : Nat) (evs : List Event) (st' : RunState) (t' : Nat)
    (h : generate_phase_stream client pause fuel st t = some (evs, st', t')) :
    st'.session.rounds
      = st.session.rounds + (if runner_rounds st.facilitator > 0 then 1 else 0) ∧
    ∃ tail, st'.session.history = st.session.history ++ tail ∧
      ∀ m ∈ tail, m.mround = none ∨ m.mround = some st.session.rounds :=
  ⟨(generate_phase_stream_spec h).2.1, (generate_phase_stream_spec h).2.2.1⟩

/-- Witness for C4: the probe phase invocation (runner round count 1)
increments the round counter from 0 to 1. -/
theorem C4_witness :
    phase_post.session.rounds = probe_state.session.rounds
      + (if runner_rounds probe_state.facilitator > 0 then 1 else 0) :=
  (C4_round_counter_single_increment probe_client (fun _ => false) 1 probe_state 0
    phase_evs phase_post 8 rfl).1

/-- Claim C2: for every run of the batch solve pipeline, the returned
`sub_solutions` list has exactly the same length as the returned
`matched_experts` list, and at every index the sub-solution's `expert_name`
equals the matched expert's `name` — one provider call is issued per expert
(`_solve_parallel` maps `_solve_single`, which makes exactly one call, over
the experts) and `asyncio.gather` preserves task-submission order.  The
catalog-length hypothesis keeps the model's generalist-padding branch
faithful to the source, which indexes `experts[0]` and `experts[5]`
unguarded. -/
theorem C2_solve_preserves_expert_order (client : LLMClient)
    (catalog : List ExpertPreset) (parse : String → Option ParsedIntent)
    (intent_llm : Except String String) (problem : String)
    (selected : List Nat) (max_experts : Nat)
    (hcat : 5 < catalog.length) :
    (solve client catalog parse intent_llm problem selected max_experts).sub_solutions.length
      = (solve client catalog parse intent_llm problem selected
          max_experts).matched_experts.length ∧
    ∀ i, (((solve client catalog parse intent_llm problem selected
          max_experts).sub_solutions.get? i).map (fun s => s.expert_name))
        = (((solve client catalog parse intent_llm problem selected
          max_experts).matched_experts.get? i).map (fun e => e.name)) := by
  have hsub : (solve client catalog parse intent_llm problem selected
        max_experts).sub_solutions
      = (solve client catalog parse intent_llm problem selected
          max_experts).matched_experts.map
        (solve_single client problem
          (solve client catalog parse intent_llm problem selected max_experts).intent) := rfl
  constructor
  · rw [hsub, List.length_map]
  · intro i
    rw [hsub, List.get?_map]
    cases (solve client catalog parse intent_llm problem selected
        max_experts).matched_experts.get? i with
    | none => rfl
    | some e => simp [solve_single]

/-- Witness for C2: a user-selected single expert from the six-entry probe
catalog, with a failing intent oracle, aligns at index 0. -/
theorem C2_witness :
    (((solve fail_client probe_catalog (fun _ => none) (Except.error "x") "p" [0]
        5).sub_solutions.get? 0).map (fun s => s.expert_name))
      = (((solve fail_client probe_catalog (fun _ => none) (Except.error "x") "p" [0]
        5).matched_experts.get? 0).map (fun e => e.name)) :=
  (C2_solve_preserves_expert_order fail_client probe_catalog (fun _ => none)
    (Except.error "x") "p" [0] 5 (by decide)).2 0

end Brainstorm
